import Mathlib

/-!
# Verification of the ceilaosystem document-storage backend

Shallow embedding of the storage abstraction layer of the repository:
the `BlobStorageService` (upload with local-filesystem backup, secure-URL
generation with dual-path lookup, deletion over both backends), the
concurrency planner, the public access-token check, and the document
migration batch loop.

Machine integers are modelled as `Nat`/`Int`; JavaScript strings as Lean
`String`; the remote blob store and the local filesystem as association
lists threaded explicitly through each operation.  External calls that can
fail at runtime (network, filesystem) are modelled by explicit boolean
availability flags carried in the service state.
-/

namespace CeilaoBackend

/-! ## JavaScript string primitives

`jsSplit` models `String.prototype.split` with a one-character separator
(JavaScript semantics: `''.split('_') = ['']`, empty segments kept).
`jsParseInt` models `parseInt(s, 10)`: leading whitespace skipped, optional
sign, then the longest leading digit run; `none` stands for `NaN`.
-/

def splitCharList (sep : Char) : List Char → List (List Char)
  | [] => [[]]
  | c :: cs =>
    match splitCharList sep cs with
    | [] => if c = sep then [[], []] else [[c]]
    | h :: t => if c = sep then [] :: h :: t else (c :: h) :: t

def jsSplit (s : String) (sep : Char) : List String :=
  (splitCharList sep s.data).map fun l => String.mk l

def digitsVal (cs : List Char) : Nat :=
  cs.foldl (fun a c => a * 10 + (c.toNat - '0'.toNat)) 0

def jsParseInt (s : String) : Option Int :=
  let cs := s.data.dropWhile (fun c => c.isWhitespace)
  match cs with
  | '-' :: rest =>
      let ds := rest.takeWhile Char.isDigit
      if ds.isEmpty then none else some (-(digitsVal ds : Int))
  | '+' :: rest =>
      let ds := rest.takeWhile Char.isDigit
      if ds.isEmpty then none else some ((digitsVal ds : Int))
  | _ =>
      let ds := cs.takeWhile Char.isDigit
      if ds.isEmpty then none else some ((digitsVal ds : Int))

/-- JavaScript `a.includes(b)` (substring containment). -/
def jsIncludes (s sub : String) : Bool :=
  decide (List.IsInfix sub.data s.data)

/-- JavaScript `s.startsWith(pre)`. -/
def strStartsWith (s pre : String) : Bool :=
  decide (List.IsPrefix pre.data s.data)

/-! ## Public access-token check

Source: `src/src/routes/documents.ts`, handler for
`GET /public/:token/:clientId/:documentType/:filename` (lines 349-363),
and the token issuance handler at lines 476-481 (`{Date.now()}_{random}`).
The route hardcodes `maxTokenAge = 30 * 60 * 1000`; `validateTokenWith`
keeps the bound as a parameter and `validateToken` fixes the code's value.
-/

inductive TokenCheck
  | invalidFormat   -- 401 'Invalid token format'
  | expired         -- 401 'Token expired'
  | ok              -- the handler proceeds to serve the document
deriving DecidableEq

def maxTokenAgeDefault : Int := 30 * 60 * 1000

def validateTokenWith (maxTokenAge : Int) (token : String) (now : Int) : TokenCheck :=
  let tokenParts := jsSplit token '_'
  if tokenParts.length < 2 then TokenCheck.invalidFormat
  else
    match jsParseInt tokenParts.headI with
    | none => TokenCheck.ok
      -- parseInt yielded NaN: in JS `now - NaN` is NaN and `NaN > maxTokenAge`
      -- is false, so the expiry branch is not taken
    | some timestamp =>
      if now - timestamp > maxTokenAge then TokenCheck.expired else TokenCheck.ok

def validateToken (token : String) (now : Int) : TokenCheck :=
  validateTokenWith maxTokenAgeDefault token now

/-! ## Storage data model

A stored object is its content bytes plus content type.  The remote (Azure)
store is an association list from blob path to object; the local filesystem
is an association list of `(directory, fileName, object)` entries, where a
directory listing is the ordered list of file names filed under one
directory.  `mkBlobPath` is the canonical `${clientId}/${documentType}/${fileName}`
key used throughout `src/unnamed/part_004` and `src/src/services/storage.ts`.
-/

structure StoredObject where
  content : List Nat
  contentType : String
deriving DecidableEq

abbrev AzureStore : Type := List (String × StoredObject)

abbrev LocalFs : Type := List (String × String × StoredObject)

def mkBlobPath (clientId documentType fileName : String) : String :=
  clientId ++ "/" ++ documentType ++ "/" ++ fileName

def joinPath (a b c : String) : String :=
  a ++ "/" ++ b ++ "/" ++ c

/-- `process.env.AZURE_STORAGE_CONTAINER_NAME || 'customer-documents'`,
modelled with the source's default. -/
def containerName : String := "customer-documents"

def lookupPath : AzureStore → String → Option StoredObject
  | [], _ => none
  | (q, o) :: rest, p => if q = p then some o else lookupPath rest p

def removePath : AzureStore → String → AzureStore
  | [], _ => []
  | (q, o) :: rest, p =>
    if q = p then removePath rest p else (q, o) :: removePath rest p

def insertPath (az : AzureStore) (p : String) (o : StoredObject) : AzureStore :=
  removePath az p ++ [(p, o)]

def fsLookup : LocalFs → String → String → Option StoredObject
  | [], _, _ => none
  | (d, n, o) :: rest, dir, f =>
    if d = dir ∧ n = f then some o else fsLookup rest dir f

def fsRemove : LocalFs → String → String → LocalFs
  | [], _, _ => []
  | (d, n, o) :: rest, dir, f =>
    if d = dir ∧ n = f then fsRemove rest dir f
    else (d, n, o) :: fsRemove rest dir f

/-- `fs.writeFileSync` at `dir/f`: overwrite an existing file or create it. -/
def fsWrite (fs : LocalFs) (dir f : String) (o : StoredObject) : LocalFs :=
  fsRemove fs dir f ++ [(dir, f, o)]

/-- `fs.readdirSync(dir)`: the names filed under `dir`.  (The real call
also distinguishes a missing directory from an empty one; the source only
ever branches on "exists and has at least one entry", which coincides with
a non-empty listing here.) -/
def fsListing : LocalFs → String → List String
  | [], _ => []
  | (d, n, _) :: rest, dir =>
    if d = dir then n :: fsListing rest dir else fsListing rest dir

/-- The three local candidate directories probed by `generateSecureUrl`,
`deleteFile` and the public route:
`path.join('./uploads', c, d)` (which `path.join` normalises to
`uploads/c/d`), `path.join('uploads', c, d)` and
`path.join('/workspace/uploads', c, d)`. -/
def localCandidateDirs (clientId documentType : String) : List String :=
  [joinPath "uploads" clientId documentType,
   joinPath "uploads" clientId documentType,
   joinPath "/workspace/uploads" clientId documentType]

/-- The directory `uploadFile` writes its local backup into:
`path.join('./uploads', clientId, documentType)` after normalisation. -/
def uploadsDir (clientId documentType : String) : String :=
  joinPath "uploads" clientId documentType

/-! ## Service state

`isLocalStorage` and the presence of a `blobServiceClient` are the two
mode flags of `BlobStorageService` in `src/unnamed/part_004`; `azureUp`
models whether calls against the remote store succeed or throw, and
`localUp` whether filesystem writes/deletes succeed or throw (all such
exceptions are caught by the source and turned into fallback behaviour).
-/

structure ServiceState where
  isLocalStorage : Bool
  hasClient : Bool
  azureUp : Bool
  localUp : Bool
  azure : AzureStore
  localFs : LocalFs

/-- The URL returned by an upload: either the real blob URL
(`blockBlobClient.url`, shape `{account}/{container}/{blobPath}`) or the
hardcoded local-fallback URL
`https://insurancedocuments.blob.core.windows.net/{container}/{blobPath}`.
The two are distinguishable constructors, mirroring the source's two
distinct return sites. -/
inductive UploadUrl
  | azureBlob (container blobPath : String)
  | localFormat (container blobPath : String)
deriving DecidableEq

structure UploadResult where
  url : UploadUrl
  path : String
deriving DecidableEq

/-- `BlobStorageService.uploadFile` from `src/unnamed/part_004` lines
245-320.  The source (1) always writes a local backup first, swallowing
filesystem errors; (2) in local-storage mode (or with no client) returns
the local-format URL; (3) otherwise attempts the Azure upload and on any
remote error falls back to returning the local-format URL.  All exceptions
are caught, so the function always returns a result.  (A failure inside
`ensureContainer` additionally flips `isLocalStorage` before being caught
here; no observable behaviour of the claims depends on that flag after a
failed upload, and we model the failure at the blob upload call.) -/
def uploadFile (st : ServiceState) (clientId documentType fileName : String)
    (fileContent : List Nat) (contentType : String) : UploadResult × ServiceState :=
  let blobPath := mkBlobPath clientId documentType fileName
  -- Always save locally first as a backup (errors caught and ignored)
  let st₁ :=
    if st.localUp then
      { st with localFs := fsWrite st.localFs (uploadsDir clientId documentType) fileName
                  ⟨fileContent, contentType⟩ }
    else st
  if st₁.isLocalStorage || !st₁.hasClient then
    ({ url := UploadUrl.localFormat containerName blobPath, path := blobPath }, st₁)
  else if st₁.azureUp then
    ({ url := UploadUrl.azureBlob containerName blobPath, path := blobPath },
     { st₁ with azure := insertPath st₁.azure blobPath ⟨fileContent, contentType⟩ })
  else
    -- remote upload threw: fall back to the local-format URL
    ({ url := UploadUrl.localFormat containerName blobPath, path := blobPath }, st₁)

/-- `BlobStorageService.calculateConcurrency` from
`src/src/services/storage.ts` lines 337-354. -/
def calculateConcurrency (fileSize : Nat) : Nat :=
  if fileSize < 1024 * 1024 then 1
  else if fileSize < 5 * 1024 * 1024 then 2
  else if fileSize < 20 * 1024 * 1024 then 4
  else if fileSize < 50 * 1024 * 1024 then 8
  else 16

/-- The SAS options built by `generateSecureUrl`:
`expiresOn = now + expirySeconds * 1000`, read-only permission, inline
disposition, both protocols allowed. -/
structure SasCredential where
  blobPath : String
  expiresOn : Int
  permissions : String
  contentDisposition : String
  protocol : String
deriving DecidableEq

inductive SecureUrlResult
  | sas (cred : SasCredential)
  | localPath (p : String)
deriving DecidableEq

/-- The loop `for (const localPath of localPaths) if (fs.existsSync(localPath)) return localPath`:
first candidate directory that holds `fileName` exactly. -/
def findFirstFile (fs : LocalFs) (f : String) : List String → Option String
  | [] => none
  | dir :: rest =>
    if (fsLookup fs dir f).isSome then some (dir ++ "/" ++ f)
    else findFirstFile fs f rest

/-- The fallback loop over `localPaths.map(p => path.dirname(p))`: first
candidate directory that exists with a non-empty listing yields its first
file. -/
def findFirstDirFile (fs : LocalFs) : List String → Option String
  | [] => none
  | dir :: rest =>
    match fsListing fs dir with
    | [] => findFirstDirFile fs rest
    | n :: _ => some (dir ++ "/" ++ n)

/-- `BlobStorageService.generateSecureUrl` from `src/unnamed/part_004`
lines 325-445.  In local-storage mode it probes the exact local paths and
then falls back to the first file of any non-empty candidate directory; in
remote mode it checks blob existence and issues a SAS credential, falling
back to the exact local paths when the blob is absent or the remote call
throws.  Every failure is converted by the outer catch into the single
error `'Failed to generate secure access URL'`. -/
def generateSecureUrl (st : ServiceState) (now : Int)
    (clientId documentType fileName : String) (expirySeconds : Int) :
    Except String SecureUrlResult :=
  let blobPath := mkBlobPath clientId documentType fileName
  let localDirs := localCandidateDirs clientId documentType
  if st.isLocalStorage || !st.hasClient then
    match findFirstFile st.localFs fileName localDirs with
    | some p => Except.ok (SecureUrlResult.localPath p)
    | none =>
      match findFirstDirFile st.localFs localDirs with
      | some p => Except.ok (SecureUrlResult.localPath p)
      | none => Except.error "Failed to generate secure access URL"
  else if st.azureUp then
    match lookupPath st.azure blobPath with
    | some _ =>
      Except.ok (SecureUrlResult.sas
        ⟨blobPath, now + expirySeconds * 1000, "r", "inline", "https,http"⟩)
    | none =>
      match findFirstFile st.localFs fileName localDirs with
      | some p => Except.ok (SecureUrlResult.localPath p)
      | none => Except.error "Failed to generate secure access URL"
  else
    -- the remote existence check threw; caught, local fallback
    match findFirstFile st.localFs fileName localDirs with
    | some p => Except.ok (SecureUrlResult.localPath p)
    | none => Except.error "Failed to generate secure access URL"

/-- `generateSecureUrl` with the source's default
`expirySeconds: number = 900` (15 minutes). -/
def generateSecureUrlDefault (st : ServiceState) (now : Int)
    (clientId documentType fileName : String) : Except String SecureUrlResult :=
  generateSecureUrl st now clientId documentType fileName 900

/-- The local half of `deleteFile`: unlink the first candidate path that
exists (the loop breaks after the first successful unlink). -/
def tryDeleteLocal (fs : LocalFs) (f : String) : List String → Bool × LocalFs
  | [] => (false, fs)
  | dir :: rest =>
    if (fsLookup fs dir f).isSome then (true, fsRemove fs dir f)
    else tryDeleteLocal fs f rest

/-- `BlobStorageService.deleteFile` from `src/unnamed/part_004` lines
450-513.  Tries the remote store (existence check, then delete) when not
in local mode, swallowing remote errors; then always tries the local
candidate paths; returns `deletedFromAzure || deletedFromLocal`.  All
inner exceptions are caught, so the function never throws. -/
def deleteFile (st : ServiceState) (clientId documentType fileName : String) :
    Bool × ServiceState :=
  let blobPath := mkBlobPath clientId documentType fileName
  let azureStep : Bool × AzureStore :=
    if !st.isLocalStorage && st.hasClient then
      if st.azureUp then
        match lookupPath st.azure blobPath with
        | some _ => (true, removePath st.azure blobPath)
        | none => (false, st.azure)
      else (false, st.azure)   -- remote call threw; caught
    else (false, st.azure)
  let localStep : Bool × LocalFs :=
    if st.localUp then
      tryDeleteLocal st.localFs fileName (localCandidateDirs clientId documentType)
    else (false, st.localFs)   -- filesystem error; caught
  (azureStep.1 || localStep.1,
   { st with azure := azureStep.2, localFs := localStep.2 })

/-! ## Migration batch

Source: `src/src/routes/documents.ts`, handler for
`POST /migrate/new-client/:newClientId` (lines 540-612).  The handler
walks `Object.entries(documentUrls)`; `download` models the `fetch` of a
source URL (`none` = fetch threw or `!response.ok`) and `uploadOk` models
whether `storageService.uploadFile` at a destination blob path succeeds
(`false` = it threw, which the per-entry catch swallows).  Successful
uploads write the destination into the remote store.
-/

structure MigrationEnv where
  download : String → Option StoredObject
  uploadOk : String → Bool

/-- Lines 558-576: extract `(documentType, filename)` from a source URL.
`none` models every `continue`-inducing parse failure: `findIndex`
returning `-1`, index `0`, index at or past `length - 1`, a missing
`urlParts[idx + 2]`, or an empty extracted component. -/
def parseMigrationUrl (url : String) : Option (String × String) :=
  let urlParts := jsSplit url '/'
  match urlParts.findIdx? (fun part => part == "new-client" || strStartsWith part "temp-") with
  | none => none
  | some oldClientIdIndex =>
    if oldClientIdIndex = 0 ∨ urlParts.length - 1 ≤ oldClientIdIndex then none
    else
      match urlParts[oldClientIdIndex + 1]?, urlParts[oldClientIdIndex + 2]? with
      | some documentType, some seg =>
        let filename := (jsSplit seg '?').headI
        if documentType = "" ∨ filename = "" then none
        else some (documentType, filename)
      | _, _ => none

/-- The fate of one `[documentKey, url]` loop iteration, independent of the
store: `some newUrl` exactly when the entry reaches
`updatedUrls[documentKey] = uploadResult.url`. -/
def migrateEntryOutcome (env : MigrationEnv) (newClientId : String)
    (value : Option String) : Option UploadUrl :=
  match value with
  | none => none
  | some url =>
    if url = "" then none
    else if !(jsIncludes url "new-client" || jsIncludes url "/temp-") then none
    else
      match parseMigrationUrl url with
      | none => none
      | some (documentType, filename) =>
        match env.download url with
        | none => none
        | some _ =>
          let dest := mkBlobPath newClientId documentType filename
          if env.uploadOk dest then some (UploadUrl.azureBlob containerName dest)
          else none

/-- The migration loop itself (lines 540-612): each entry is guarded by
the `!url || typeof url !== 'string'` check, the `shouldMigrate`
substring check, the URL parse, the download and the upload, every
failure hitting a `continue` or the per-entry catch; a success appends
`documentKey ↦ uploadResult.url` to `updatedUrls` and the uploaded object
to the remote store. -/
def migrateNewClient (env : MigrationEnv) (newClientId : String) :
    List (String × Option String) → AzureStore →
    List (String × UploadUrl) × AzureStore
  | [], store => ([], store)
  | (documentKey, value) :: rest, store =>
    match value with
    | none => migrateNewClient env newClientId rest store
    | some url =>
      if url = "" then migrateNewClient env newClientId rest store
      else if !(jsIncludes url "new-client" || jsIncludes url "/temp-") then
        migrateNewClient env newClientId rest store
      else
        match parseMigrationUrl url with
        | none => migrateNewClient env newClientId rest store
        | some (documentType, filename) =>
          match env.download url with
          | none => migrateNewClient env newClientId rest store
          | some obj =>
            let dest := mkBlobPath newClientId documentType filename
            if env.uploadOk dest then
              let res := migrateNewClient env newClientId rest (insertPath store dest obj)
              ((documentKey, UploadUrl.azureBlob containerName dest) :: res.1, res.2)
            else migrateNewClient env newClientId rest store

/-! ## Store lemmas -/

theorem lookupPath_append (l r : AzureStore) (p : String) :
    lookupPath (l ++ r) p =
      match lookupPath l p with
      | some o => some o
      | none => lookupPath r p := by
  induction l with
  | nil => simp [lookupPath]
  | cons e rest ih =>
    obtain ⟨q, o⟩ := e
    by_cases h : q = p <;> simp [lookupPath, h, ih]

theorem lookupPath_removePath (az : AzureStore) (p q : String) :
    lookupPath (removePath az p) q = if q = p then none else lookupPath az q := by
  induction az with
  | nil => simp [removePath, lookupPath]
  | cons e rest ih =>
    obtain ⟨r, o⟩ := e
    by_cases hrp : r = p
    · rw [show removePath ((r, o) :: rest) p = removePath rest p by
        simp [removePath, hrp], ih]
      by_cases hqp : q = p
      · simp [hqp]
      · have hrq : ¬ r = q := fun h => hqp (h.symm.trans hrp)
        simp [hqp, lookupPath, hrq]
    · rw [show removePath ((r, o) :: rest) p = (r, o) :: removePath rest p by
        simp [removePath, hrp]]
      by_cases hrq : r = q
      · have hqp : ¬ q = p := fun h => hrp (hrq.trans h)
        simp [lookupPath, hrq, hqp]
      · simp [lookupPath, hrq, ih]

theorem lookupPath_insertPath (az : AzureStore) (p q : String) (o : StoredObject) :
    lookupPath (insertPath az p o) q =
      if q = p then some o else lookupPath az q := by
  unfold insertPath
  rw [lookupPath_append, lookupPath_removePath]
  by_cases h : q = p
  · simp [h, lookupPath]
  · have h' : ¬ p = q := fun hh => h hh.symm
    simp [h, lookupPath, h']
    cases lookupPath az q <;> simp

theorem fsLookup_append (l r : LocalFs) (dir f : String) :
    fsLookup (l ++ r) dir f =
      match fsLookup l dir f with
      | some o => some o
      | none => fsLookup r dir f := by
  induction l with
  | nil => simp [fsLookup]
  | cons e rest ih =>
    obtain ⟨d, n, o⟩ := e
    by_cases h : d = dir ∧ n = f <;> simp [fsLookup, h, ih]

theorem fsLookup_fsRemove (fs : LocalFs) (dir f dir' f' : String) :
    fsLookup (fsRemove fs dir f) dir' f' =
      if dir' = dir ∧ f' = f then none else fsLookup fs dir' f' := by
  induction fs with
  | nil => simp [fsRemove, fsLookup]
  | cons e rest ih =>
    obtain ⟨d, n, o⟩ := e
    by_cases h1 : d = dir ∧ n = f
    · rw [show fsRemove ((d, n, o) :: rest) dir f = fsRemove rest dir f by
        simp [fsRemove, h1], ih]
      by_cases h2 : dir' = dir ∧ f' = f
      · simp [h2]
      · have h3 : ¬ (d = dir' ∧ n = f') := by
          rintro ⟨hd, hn⟩
          exact h2 ⟨hd.symm.trans h1.1, hn.symm.trans h1.2⟩
        simp [h2, fsLookup, h3]
    · rw [show fsRemove ((d, n, o) :: rest) dir f = (d, n, o) :: fsRemove rest dir f by
        simp [fsRemove, h1]]
      by_cases h3 : d = dir' ∧ n = f'
      · have h2 : ¬ (dir' = dir ∧ f' = f) := by
          rintro ⟨hd, hf⟩
          exact h1 ⟨h3.1.trans hd, h3.2.trans hf⟩
        simp [fsLookup, h3, h2]
      · simp [fsLookup, h3, ih]

theorem fsLookup_fsWrite (fs : LocalFs) (dir f dir' f' : String) (o : StoredObject) :
    fsLookup (fsWrite fs dir f o) dir' f' =
      if dir' = dir ∧ f' = f then some o else fsLookup fs dir' f' := by
  unfold fsWrite
  rw [fsLookup_append, fsLookup_fsRemove]
  by_cases h : dir' = dir ∧ f' = f
  · obtain ⟨hd, hf⟩ := h
    subst hd; subst hf
    simp [fsLookup]
  · have h2 : ¬ (dir = dir' ∧ f = f') := fun hh => h ⟨hh.1.symm, hh.2.symm⟩
    simp [h, fsLookup, h2]
    cases fsLookup fs dir' f' <;> simp

theorem fsLookup_none_iff (fs : LocalFs) (dir f : String) :
    fsLookup fs dir f = none ↔ f ∉ fsListing fs dir := by
  induction fs with
  | nil => simp [fsLookup, fsListing]
  | cons e rest ih =>
    obtain ⟨d, n, o⟩ := e
    by_cases hd : d = dir
    · by_cases hn : n = f
      · simp [fsLookup, fsListing, hd, hn]
      · simp [fsLookup, fsListing, hd, hn, ih]
        intro h
        exact fun heq => hn heq.symm
    · simp [fsLookup, fsListing, hd, ih, fun h : d = dir ∧ n = f => hd h.1]

/-! ## Claim theorems -/

/-- C2: the concurrency planner (`calculateConcurrency`) is monotonic
non-decreasing in the file size and returns exactly the table values:
1 for sizes below 1 MiB, 2 on [1 MiB, 5 MiB), 4 on [5 MiB, 20 MiB),
8 on [20 MiB, 50 MiB) and 16 at and above 50 MiB; in particular 0.99 MiB
(1038090 bytes) maps to 1, exactly 1 MiB to 2 and exactly 50 MiB to 16. -/
theorem claim_C2_concurrency_planner :
    (∀ s t : Nat, s ≤ t → calculateConcurrency s ≤ calculateConcurrency t)
    ∧ (∀ s : Nat, s < 1048576 → calculateConcurrency s = 1)
    ∧ (∀ s : Nat, 1048576 ≤ s → s < 5242880 → calculateConcurrency s = 2)
    ∧ (∀ s : Nat, 5242880 ≤ s → s < 20971520 → calculateConcurrency s = 4)
    ∧ (∀ s : Nat, 20971520 ≤ s → s < 52428800 → calculateConcurrency s = 8)
    ∧ (∀ s : Nat, 52428800 ≤ s → calculateConcurrency s = 16)
    ∧ calculateConcurrency 1038090 = 1
    ∧ calculateConcurrency 1048576 = 2
    ∧ calculateConcurrency 52428800 = 16 := by
  refine ⟨?_, ?_, ?_, ?_, ?_, ?_, by decide, by decide, by decide⟩
  · intro s t hst
    unfold calculateConcurrency
    split_ifs <;> omega
  all_goals
    intro s h1
    try intro h2
  all_goals
    unfold calculateConcurrency
    split_ifs <;> omega

theorem claim_C2_concurrency_planner_witness :
    (1038090 : Nat) ≤ 52428800 ∧
    calculateConcurrency 1038090 ≤ calculateConcurrency 52428800 :=
  ⟨by decide, claim_C2_concurrency_planner.1 1038090 52428800 (by decide)⟩

/-- C5: the public-route token check rejects exactly the tokens with fewer
than two `_`-delimited parts or whose parsed leading timestamp is more
than `maxAge` (30 minutes hardcoded in the route) behind `now`; every
other token is accepted.  A token issued 5 minutes before `now` is
accepted; one issued 31 minutes before `now` is rejected as expired. -/
theorem claim_C5_access_token_validation :
    (∀ (maxAge : Int) (token : String) (now : Int),
        validateTokenWith maxAge token now ≠ TokenCheck.ok ↔
          ((jsSplit token '_').length < 2 ∨
           ∃ t, jsParseInt (jsSplit token '_').headI = some t ∧ now - t > maxAge))
    ∧ validateToken "1999700000_r4nd0m" 2000000000 = TokenCheck.ok
    ∧ validateToken "1998140000_r4nd0m" 2000000000 = TokenCheck.expired := by
  refine ⟨?_, by decide, by decide⟩
  intro maxAge token now
  unfold validateTokenWith
  by_cases hlen : (jsSplit token '_').length < 2
  · simp [hlen]
  · simp only [hlen, if_false]
    cases hp : jsParseInt (jsSplit token '_').headI with
    | none => simp [hlen]
    | some t =>
      by_cases hage : now - t > maxAge
      · simp [hlen, hage]
      · simp [hlen, hage]

theorem claim_C5_access_token_validation_witness :
    validateTokenWith 1800000 "abc" 0 ≠ TokenCheck.ok :=
  (claim_C5_access_token_validation.1 1800000 "abc" 0).mpr (Or.inl (by decide))

/-- C9 (implicit): when a well-formed token's leading part does not parse
as a number (`parseInt` yields NaN), the age check is bypassed and the
token is accepted regardless of `now`; a rejection for age happens only
when the leading part is numeric; and a future-dated numeric timestamp is
also accepted. -/
theorem claim_C9_nan_timestamp_fails_open :
    (∀ (token : String) (now : Int),
        2 ≤ (jsSplit token '_').length →
        jsParseInt (jsSplit token '_').headI = none →
        validateToken token now = TokenCheck.ok)
    ∧ (∀ (token : String) (now : Int),
        validateToken token now = TokenCheck.expired →
        ∃ t, jsParseInt (jsSplit token '_').headI = some t ∧
          now - t > maxTokenAgeDefault)
    ∧ (∀ (token : String) (now t : Int),
        2 ≤ (jsSplit token '_').length →
        jsParseInt (jsSplit token '_').headI = some t →
        now < t →
        validateToken token now = TokenCheck.ok) := by
  refine ⟨?_, ?_, ?_⟩
  · intro token now hlen hp
    unfold validateToken validateTokenWith
    simp [Nat.not_lt.mpr hlen, hp]
  · intro token now hval
    unfold validateToken validateTokenWith at hval
    by_cases hlen : (jsSplit token '_').length < 2
    · simp [hlen] at hval
    · simp only [hlen, if_false] at hval
      cases hp : jsParseInt (jsSplit token '_').headI with
      | none => rw [hp] at hval; simp at hval
      | some t =>
        rw [hp] at hval
        by_cases hage : now - t > maxTokenAgeDefault
        · exact ⟨t, rfl, hage⟩
        · simp [hage] at hval
  · intro token now t hlen hp hfut
    unfold validateToken validateTokenWith
    have hage : ¬ (now - t > maxTokenAgeDefault) := by
      unfold maxTokenAgeDefault
      omega
    simp [Nat.not_lt.mpr hlen, hp, hage]

theorem claim_C9_nan_timestamp_fails_open_witness :
    2 ≤ (jsSplit "nonsense_x" '_').length ∧
    jsParseInt (jsSplit "nonsense_x" '_').headI = none ∧
    validateToken "nonsense_x" 99999999999 = TokenCheck.ok :=
  ⟨by decide, by decide,
   claim_C9_nan_timestamp_fails_open.1 "nonsense_x" 99999999999 (by decide) (by decide)⟩

/-- C1: when the remote write fails but the local filesystem works,
`uploadFile` still returns success: the returned location is the
local-format URL (the "local" tag distinguishable at read time), the
content sits in the local backup directory, and a subsequent
`generateSecureUrl` on the same reference returns the usable local file
reference.  The source catches both the remote error and the local error
and falls through to a successful return in every branch, so an error
could surface only if both catch blocks were bypassed — `uploadFile`
never throws, which satisfies "errors only when both writes fail"
vacuously. -/
theorem claim_C1_put_degradation_ladder
    (st : ServiceState) (c d f : String) (content : List Nat) (ct : String)
    (now e : Int)
    (hmode : st.isLocalStorage = false) (hcli : st.hasClient = true)
    (hfail : st.azureUp = false) (hloc : st.localUp = true) :
    (uploadFile st c d f content ct).1 =
      { url := UploadUrl.localFormat containerName (mkBlobPath c d f),
        path := mkBlobPath c d f }
    ∧ fsLookup (uploadFile st c d f content ct).2.localFs (uploadsDir c d) f =
        some ⟨content, ct⟩
    ∧ generateSecureUrl (uploadFile st c d f content ct).2 now c d f e =
        Except.ok (SecureUrlResult.localPath (uploadsDir c d ++ "/" ++ f)) := by
  have hfs : fsLookup (fsWrite st.localFs (uploadsDir c d) f ⟨content, ct⟩)
      (uploadsDir c d) f = some ⟨content, ct⟩ := by
    rw [fsLookup_fsWrite]
    simp
  refine ⟨?_, ?_, ?_⟩
  · simp [uploadFile, hmode, hcli, hfail, hloc]
  · simp only [uploadFile, hmode, hcli, hfail, hloc]
    simpa using hfs
  · simp only [uploadFile, hmode, hcli, hfail, hloc]
    simp only [uploadsDir] at hfs
    simp [generateSecureUrl, findFirstFile, localCandidateDirs, uploadsDir, hmode,
      hcli, hfail, hfs]

theorem claim_C1_put_degradation_ladder_witness :
    (ServiceState.mk false true false true [] []).isLocalStorage = false ∧
    generateSecureUrl
        (uploadFile (ServiceState.mk false true false true [] [])
          "t1" "nic_proof" "a.pdf" [7] "application/pdf").2
        1000 "t1" "nic_proof" "a.pdf" 900 =
      Except.ok (SecureUrlResult.localPath (uploadsDir "t1" "nic_proof" ++ "/" ++ "a.pdf")) :=
  ⟨rfl,
   (claim_C1_put_degradation_ladder (ServiceState.mk false true false true [] [])
     "t1" "nic_proof" "a.pdf" [7] "application/pdf" 1000 900
     rfl rfl rfl rfl).2.2⟩

def c8State : ServiceState :=
  { isLocalStorage := false, hasClient := true, azureUp := true, localUp := true,
    azure := [], localFs := [] }

/-- C8 counterexample: with the remote store reachable the remote write
succeeds (the returned URL is the real blob URL), yet a local-filesystem
write has still occurred — `uploadFile` writes the local backup
unconditionally, before consulting the remote backend, refuting "no write
to the local filesystem backend occurs" when the remote write succeeds. -/
theorem claim_C8_counterexample :
    (uploadFile c8State "t1" "nic_proof" "a.pdf" [7] "application/pdf").1.url =
      UploadUrl.azureBlob containerName (mkBlobPath "t1" "nic_proof" "a.pdf")
    ∧ fsLookup (uploadFile c8State "t1" "nic_proof" "a.pdf" [7] "application/pdf").2.localFs
        (uploadsDir "t1" "nic_proof") "a.pdf" = some ⟨[7], "application/pdf"⟩ := by
  constructor <;> decide

/-- C8 amended: the local backup write is unconditional — every
`uploadFile` call with a working filesystem writes the content to the
local backup directory first, regardless of the remote outcome; the
local backend is never the returned primary location when the remote
write succeeds (the returned URL is then the real blob URL). -/
theorem claim_C8_local_backup_always_written
    (st : ServiceState) (c d f : String) (content : List Nat) (ct : String)
    (hloc : st.localUp = true) :
    fsLookup (uploadFile st c d f content ct).2.localFs (uploadsDir c d) f =
      some ⟨content, ct⟩
    ∧ (st.isLocalStorage = false → st.hasClient = true → st.azureUp = true →
        (uploadFile st c d f content ct).1.url =
          UploadUrl.azureBlob containerName (mkBlobPath c d f)) := by
  have hfs : fsLookup (fsWrite st.localFs (uploadsDir c d) f ⟨content, ct⟩)
      (uploadsDir c d) f = some ⟨content, ct⟩ := by
    rw [fsLookup_fsWrite]
    simp
  constructor
  · unfold uploadFile
    simp only [hloc, if_true]
    cases hm : st.isLocalStorage <;> cases hc : st.hasClient <;>
      cases ha : st.azureUp <;> simp [hm, hc, ha, hfs]
  · intro hm hc ha
    unfold uploadFile
    simp [hloc, hm, hc, ha]

theorem claim_C8_local_backup_always_written_witness :
    fsLookup (uploadFile c8State "t1" "nic_proof" "a.pdf" [7] "application/pdf").2.localFs
      (uploadsDir "t1" "nic_proof") "a.pdf" = some ⟨[7], "application/pdf"⟩ :=
  (claim_C8_local_backup_always_written c8State "t1" "nic_proof" "a.pdf"
    [7] "application/pdf" rfl).1

/-- C4: dual-path read access with the remote backend configured and
reachable.  If the blob exists remotely, `generateSecureUrl` returns the
read-only, inline-disposition, time-bounded SAS credential expiring at
`now + ttl` (and at `now + 900 s` — 15 minutes — under the default);
if absent remotely but present at a local candidate path it returns that
direct local reference; and it returns an error exactly when both the
remote store and every local candidate path lack the object. -/
theorem claim_C4_get_read_access
    (st : ServiceState) (now e : Int) (c d f : String)
    (hmode : st.isLocalStorage = false) (hcli : st.hasClient = true)
    (hup : st.azureUp = true) :
    (∀ o, lookupPath st.azure (mkBlobPath c d f) = some o →
        generateSecureUrl st now c d f e =
          Except.ok (SecureUrlResult.sas
            ⟨mkBlobPath c d f, now + e * 1000, "r", "inline", "https,http"⟩))
    ∧ (∀ o, lookupPath st.azure (mkBlobPath c d f) = some o →
        generateSecureUrlDefault st now c d f =
          Except.ok (SecureUrlResult.sas
            ⟨mkBlobPath c d f, now + 900 * 1000, "r", "inline", "https,http"⟩))
    ∧ (lookupPath st.azure (mkBlobPath c d f) = none →
        ∀ p, findFirstFile st.localFs f (localCandidateDirs c d) = some p →
          generateSecureUrl st now c d f e =
            Except.ok (SecureUrlResult.localPath p))
    ∧ ((∃ msg, generateSecureUrl st now c d f e = Except.error msg) ↔
        (lookupPath st.azure (mkBlobPath c d f) = none ∧
         findFirstFile st.localFs f (localCandidateDirs c d) = none)) := by
  refine ⟨?_, ?_, ?_, ?_⟩
  · intro o ho
    simp [generateSecureUrl, hmode, hcli, hup, ho]
  · intro o ho
    simp [generateSecureUrlDefault, generateSecureUrl, hmode, hcli, hup, ho]
  · intro ha p hp
    simp [generateSecureUrl, hmode, hcli, hup, ha, hp]
  · cases ha : lookupPath st.azure (mkBlobPath c d f) with
    | some o => simp [generateSecureUrl, hmode, hcli, hup, ha]
    | none =>
      cases hp : findFirstFile st.localFs f (localCandidateDirs c d) with
      | some p => simp [generateSecureUrl, hmode, hcli, hup, ha, hp]
      | none => simp [generateSecureUrl, hmode, hcli, hup, ha, hp]

def c4State : ServiceState :=
  { isLocalStorage := false, hasClient := true, azureUp := true, localUp := true,
    azure := [(mkBlobPath "t1" "nic_proof" "a.pdf", ⟨[1], "application/pdf"⟩)],
    localFs := [] }

theorem claim_C4_get_read_access_witness :
    lookupPath c4State.azure (mkBlobPath "t1" "nic_proof" "a.pdf") =
      some ⟨[1], "application/pdf"⟩ ∧
    generateSecureUrl c4State 1000 "t1" "nic_proof" "a.pdf" 300 =
      Except.ok (SecureUrlResult.sas
        ⟨mkBlobPath "t1" "nic_proof" "a.pdf", 1000 + 300 * 1000, "r", "inline",
         "https,http"⟩) :=
  ⟨by decide,
   (claim_C4_get_read_access c4State 1000 300 "t1" "nic_proof" "a.pdf"
     rfl rfl rfl).1 ⟨[1], "application/pdf"⟩ (by decide)⟩

/-- C10 (implicit): in local-storage mode, when the exact requested file
is absent from every candidate path but the `uploads` directory for the
(tenant, category) pair has a non-empty listing, `generateSecureUrl`
returns the first file of that directory instead of a NotFound error —
and that file is provably not the one that was named. -/
theorem claim_C10_local_mode_similar_file
    (st : ServiceState) (now e : Int) (c d f fn : String) (rest : List String)
    (hmode : st.isLocalStorage = true)
    (habsent1 : fsLookup st.localFs (joinPath "uploads" c d) f = none)
    (habsent3 : fsLookup st.localFs (joinPath "/workspace/uploads" c d) f = none)
    (hdir : fsListing st.localFs (joinPath "uploads" c d) = fn :: rest) :
    generateSecureUrl st now c d f e =
      Except.ok (SecureUrlResult.localPath (joinPath "uploads" c d ++ "/" ++ fn))
    ∧ fn ≠ f := by
  constructor
  · simp [generateSecureUrl, findFirstFile, findFirstDirFile, localCandidateDirs,
      hmode, habsent1, habsent3, hdir]
  · intro hfn
    have hmem := (fsLookup_none_iff st.localFs (joinPath "uploads" c d) f).mp habsent1
    rw [hdir, hfn] at hmem
    exact hmem (List.mem_cons_self f rest)

def c10State : ServiceState :=
  { isLocalStorage := true, hasClient := false, azureUp := false, localUp := true,
    azure := [],
    localFs := [(joinPath "uploads" "t1" "nic_proof", "other.pdf",
                 ⟨[2], "application/pdf"⟩)] }

theorem claim_C10_local_mode_similar_file_witness :
    fsLookup c10State.localFs (joinPath "uploads" "t1" "nic_proof") "a.pdf" = none ∧
    generateSecureUrl c10State 1000 "t1" "nic_proof" "a.pdf" 900 =
      Except.ok (SecureUrlResult.localPath
        (joinPath "uploads" "t1" "nic_proof" ++ "/" ++ "other.pdf")) :=
  ⟨by decide,
   (claim_C10_local_mode_similar_file c10State 1000 900 "t1" "nic_proof" "a.pdf"
     "other.pdf" [] rfl (by decide) (by decide) (by decide)).1⟩

/-- C3: delete idempotence.  With both backends reachable (and the local
store not aliasing the `/workspace` fallback path), `deleteFile` returns
true exactly when some backend held — and therefore removed — an object
under the reference's path, and false when neither did; a second call on
the same reference then always returns false.  All backend exceptions are
caught inside `deleteFile` (it returns a plain boolean in every case), so
neither call can surface an error. -/
theorem claim_C3_delete_idempotent
    (st : ServiceState) (c d f : String)
    (hmode : st.isLocalStorage = false) (hcli : st.hasClient = true)
    (hup : st.azureUp = true) (hloc : st.localUp = true)
    (hnoalias : fsLookup st.localFs (joinPath "/workspace/uploads" c d) f = none) :
    ((deleteFile st c d f).1 = true ↔
      ((lookupPath st.azure (mkBlobPath c d f)).isSome ∨
       (fsLookup st.localFs (joinPath "uploads" c d) f).isSome))
    ∧ (deleteFile (deleteFile st c d f).2 c d f).1 = false := by
  have hmode' : (deleteFile st c d f).2.isLocalStorage = st.isLocalStorage := by
    simp [deleteFile]
  cases ha : lookupPath st.azure (mkBlobPath c d f) with
  | some o =>
    cases hl : fsLookup st.localFs (joinPath "uploads" c d) f with
    | some o' =>
      constructor
      · simp [deleteFile, tryDeleteLocal, localCandidateDirs, hmode, hcli, hup,
          hloc, ha, hl]
      · simp only [deleteFile, tryDeleteLocal, localCandidateDirs, hmode, hcli,
          hup, hloc, ha, hl]
        simp [lookupPath_removePath, fsLookup_fsRemove, hnoalias,
          tryDeleteLocal, deleteFile]
    | none =>
      constructor
      · simp [deleteFile, tryDeleteLocal, localCandidateDirs, hmode, hcli, hup,
          hloc, ha, hl, hnoalias]
      · simp only [deleteFile, tryDeleteLocal, localCandidateDirs, hmode, hcli,
          hup, hloc, ha, hl, hnoalias]
        simp [lookupPath_removePath, fsLookup_fsRemove, hnoalias, hl,
          tryDeleteLocal, deleteFile]
  | none =>
    cases hl : fsLookup st.localFs (joinPath "uploads" c d) f with
    | some o' =>
      constructor
      · simp [deleteFile, tryDeleteLocal, localCandidateDirs, hmode, hcli, hup,
          hloc, ha, hl]
      · simp only [deleteFile, tryDeleteLocal, localCandidateDirs, hmode, hcli,
          hup, hloc, ha, hl]
        simp [lookupPath_removePath, fsLookup_fsRemove, hnoalias, ha,
          tryDeleteLocal, deleteFile]
    | none =>
      constructor
      · simp [deleteFile, tryDeleteLocal, localCandidateDirs, hmode, hcli, hup,
          hloc, ha, hl, hnoalias]
      · simp [deleteFile, tryDeleteLocal, localCandidateDirs, hmode, hcli, hup,
          hloc, ha, hl, hnoalias]

def c3State : ServiceState :=
  { isLocalStorage := false, hasClient := true, azureUp := true, localUp := true,
    azure := [(mkBlobPath "t1" "nic_proof" "a.pdf", ⟨[1], "application/pdf"⟩)],
    localFs := [(joinPath "uploads" "t1" "nic_proof", "a.pdf",
                 ⟨[1], "application/pdf"⟩)] }

theorem claim_C3_delete_idempotent_witness :
    (deleteFile c3State "t1" "nic_proof" "a.pdf").1 = true ∧
    (deleteFile (deleteFile c3State "t1" "nic_proof" "a.pdf").2
      "t1" "nic_proof" "a.pdf").1 = false :=
  ⟨((claim_C3_delete_idempotent c3State "t1" "nic_proof" "a.pdf"
      rfl rfl rfl rfl (by decide)).1).mpr (Or.inl (by decide)),
   (claim_C3_delete_idempotent c3State "t1" "nic_proof" "a.pdf"
      rfl rfl rfl rfl (by decide)).2⟩

/-! ## Migration lemmas -/

/-- The store effect of one migration loop iteration: unchanged on every
skip path, one destination insert on the success path. -/
def migrateEntryEffect (env : MigrationEnv) (newClientId : String)
    (value : Option String) (store : AzureStore) : AzureStore :=
  match value with
  | none => store
  | some url =>
    if url = "" then store
    else if !(jsIncludes url "new-client" || jsIncludes url "/temp-") then store
    else
      match parseMigrationUrl url with
      | none => store
      | some (documentType, filename) =>
        match env.download url with
        | none => store
        | some obj =>
          if env.uploadOk (mkBlobPath newClientId documentType filename) then
            insertPath store (mkBlobPath newClientId documentType filename) obj
          else store

theorem migrateNewClient_cons (env : MigrationEnv) (newClientId k : String)
    (v : Option String) (rest : List (String × Option String)) (store : AzureStore) :
    migrateNewClient env newClientId ((k, v) :: rest) store =
      ((match migrateEntryOutcome env newClientId v with
        | some u => (k, u) ::
            (migrateNewClient env newClientId rest
              (migrateEntryEffect env newClientId v store)).1
        | none =>
            (migrateNewClient env newClientId rest
              (migrateEntryEffect env newClientId v store)).1),
       (migrateNewClient env newClientId rest
         (migrateEntryEffect env newClientId v store)).2) := by
  cases v with
  | none => simp [migrateNewClient, migrateEntryOutcome, migrateEntryEffect]
  | some url =>
    by_cases h1 : url = ""
    · simp [migrateNewClient, migrateEntryOutcome, migrateEntryEffect, h1]
    · cases h2 : (jsIncludes url "new-client" || jsIncludes url "/temp-") with
      | false =>
        simp [migrateNewClient, migrateEntryOutcome, migrateEntryEffect, h1, h2]
      | true =>
        cases h3 : parseMigrationUrl url with
        | none =>
          simp [migrateNewClient, migrateEntryOutcome, migrateEntryEffect, h1, h2, h3]
        | some pr =>
          obtain ⟨dt, fn⟩ := pr
          cases h4 : env.download url with
          | none =>
            simp [migrateNewClient, migrateEntryOutcome, migrateEntryEffect,
              h1, h2, h3, h4]
          | some obj =>
            cases h5 : env.uploadOk (mkBlobPath newClientId dt fn) with
            | false =>
              simp [migrateNewClient, migrateEntryOutcome, migrateEntryEffect,
                h1, h2, h3, h4, h5]
            | true =>
              simp [migrateNewClient, migrateEntryOutcome, migrateEntryEffect,
                h1, h2, h3, h4, h5]

theorem mkBlobPath_startsWith (c d f : String) :
    strStartsWith (mkBlobPath c d f) (c ++ "/") = true := by
  unfold strStartsWith mkBlobPath
  rw [decide_eq_true_eq]
  simp only [String.data_append, List.append_assoc]
  exact ⟨d.data ++ "/".data ++ f.data, by simp⟩

theorem lookupPath_insertPath_isSome (az : AzureStore) (p q : String)
    (o : StoredObject) (h : (lookupPath az p).isSome = true) :
    (lookupPath (insertPath az q o) p).isSome = true := by
  rw [lookupPath_insertPath]
  split_ifs <;> simp_all

theorem migrateEntryEffect_isSome (env : MigrationEnv) (newClientId : String)
    (v : Option String) (store : AzureStore) (p : String)
    (h : (lookupPath store p).isSome = true) :
    (lookupPath (migrateEntryEffect env newClientId v store) p).isSome = true := by
  unfold migrateEntryEffect
  repeat' split
  all_goals first
    | exact h
    | exact lookupPath_insertPath_isSome _ _ _ _ h

theorem migrateEntryEffect_frame (env : MigrationEnv) (newClientId : String)
    (v : Option String) (store : AzureStore) (p : String)
    (hpre : strStartsWith p (newClientId ++ "/") = false) :
    lookupPath (migrateEntryEffect env newClientId v store) p =
      lookupPath store p := by
  unfold migrateEntryEffect
  repeat' split
  all_goals try rfl
  rw [lookupPath_insertPath, if_neg]
  intro hp
  rw [hp, mkBlobPath_startsWith] at hpre
  simp at hpre

theorem migrateNewClient_keeps (env : MigrationEnv) (newClientId : String)
    (entries : List (String × Option String)) :
    ∀ (store : AzureStore) (p : String),
      (lookupPath store p).isSome = true →
      (lookupPath (migrateNewClient env newClientId entries store).2 p).isSome = true := by
  induction entries with
  | nil =>
    intro store p h
    simpa [migrateNewClient] using h
  | cons e rest ih =>
    intro store p h
    obtain ⟨k, v⟩ := e
    rw [migrateNewClient_cons]
    exact ih _ p (migrateEntryEffect_isSome env newClientId v store p h)

theorem migrateNewClient_frame (env : MigrationEnv) (newClientId : String)
    (entries : List (String × Option String)) :
    ∀ (store : AzureStore) (p : String),
      strStartsWith p (newClientId ++ "/") = false →
      lookupPath (migrateNewClient env newClientId entries store).2 p =
        lookupPath store p := by
  induction entries with
  | nil =>
    intro store p _
    simp [migrateNewClient]
  | cons e rest ih =>
    intro store p hpre
    obtain ⟨k, v⟩ := e
    rw [migrateNewClient_cons]
    show lookupPath (migrateNewClient env newClientId rest
      (migrateEntryEffect env newClientId v store)).2 p = _
    rw [ih _ p hpre, migrateEntryEffect_frame env newClientId v store p hpre]

theorem migrateNewClient_report (env : MigrationEnv) (newClientId : String)
    (entries : List (String × Option String)) :
    ∀ store : AzureStore,
      (migrateNewClient env newClientId entries store).1 =
        entries.filterMap (fun entry =>
          (migrateEntryOutcome env newClientId entry.2).map
            (fun u => (entry.1, u))) := by
  induction entries with
  | nil =>
    intro store
    simp [migrateNewClient]
  | cons e rest ih =>
    intro store
    obtain ⟨k, v⟩ := e
    rw [migrateNewClient_cons]
    cases ho : migrateEntryOutcome env newClientId v <;>
      simp [List.filterMap_cons, ho, ih]

/-- C6: the migration loop's report maps `documentKey` to the new
location for exactly the entries whose processing (guards, URL parse,
download, upload) succeeded — failed or skipped keys are absent — and an
entry whose processing fails is skipped without affecting the processing
of the rest of the batch (no early abort). -/
theorem claim_C6_migration_isolation (env : MigrationEnv) (newClientId : String) :
    (∀ (entries : List (String × Option String)) (store : AzureStore),
        (migrateNewClient env newClientId entries store).1 =
          entries.filterMap (fun entry =>
            (migrateEntryOutcome env newClientId entry.2).map
              (fun u => (entry.1, u))))
    ∧ (∀ (xs ys : List (String × Option String)) (e : String × Option String)
          (store : AzureStore),
        migrateEntryOutcome env newClientId e.2 = none →
        (migrateNewClient env newClientId (xs ++ e :: ys) store).1 =
          (migrateNewClient env newClientId (xs ++ ys) store).1) := by
  refine ⟨fun entries store => migrateNewClient_report env newClientId entries store, ?_⟩
  intro xs ys e store h
  rw [migrateNewClient_report, migrateNewClient_report]
  simp [List.filterMap_append, List.filterMap_cons, h]

def c6Env : MigrationEnv :=
  { download := fun _ => some ⟨[1], "application/pdf"⟩,
    uploadOk := fun _ => true }

theorem claim_C6_migration_isolation_witness :
    migrateEntryOutcome c6Env "c9" (some "https://acc.example/new-client") = none ∧
    (migrateNewClient c6Env "c9"
        ([("k1", some "https://acc.example/customer-documents/new-client/nic_proof/a.pdf")] ++
          ("k2", some "https://acc.example/new-client") ::
          [("k3", some "https://acc.example/customer-documents/new-client/nic_proof/b.pdf")])
        []).1 =
      (migrateNewClient c6Env "c9"
        ([("k1", some "https://acc.example/customer-documents/new-client/nic_proof/a.pdf")] ++
          [("k3", some "https://acc.example/customer-documents/new-client/nic_proof/b.pdf")])
        []).1 :=
  ⟨by decide,
   (claim_C6_migration_isolation c6Env "c9").2
     [("k1", some "https://acc.example/customer-documents/new-client/nic_proof/a.pdf")]
     [("k3", some "https://acc.example/customer-documents/new-client/nic_proof/b.pdf")]
     ("k2", some "https://acc.example/new-client") [] (by decide)⟩

/-- C7: the migration batch never deletes anything — every path mapped by
the remote store before the batch is still mapped after it (the store
only ever receives inserts), and every path outside the destination
namespace `newClientId/...` is left byte-for-byte unchanged: migration
reads sources and writes destinations only. -/
theorem claim_C7_migration_preserves_sources
    (env : MigrationEnv) (newClientId : String)
    (entries : List (String × Option String)) (store : AzureStore) :
    (∀ p o, lookupPath store p = some o →
        (lookupPath (migrateNewClient env newClientId entries store).2 p).isSome = true)
    ∧ (∀ p, strStartsWith p (newClientId ++ "/") = false →
        lookupPath (migrateNewClient env newClientId entries store).2 p =
          lookupPath store p) :=
  ⟨fun p _ h => migrateNewClient_keeps env newClientId entries store p (by simp [h]),
   fun p h => migrateNewClient_frame env newClientId entries store p h⟩

def c7Env : MigrationEnv :=
  { download := fun _ => some ⟨[3], "application/pdf"⟩,
    uploadOk := fun _ => true }

theorem claim_C7_migration_preserves_sources_witness :
    (lookupPath
        (migrateNewClient c7Env "c9"
          [("k1", some "https://acc.example/customer-documents/new-client/nic_proof/a.pdf")]
          [("new-client/nic_proof/a.pdf", ⟨[3], "application/pdf"⟩)]).2
        "new-client/nic_proof/a.pdf").isSome = true :=
  (claim_C7_migration_preserves_sources c7Env "c9"
    [("k1", some "https://acc.example/customer-documents/new-client/nic_proof/a.pdf")]
    [("new-client/nic_proof/a.pdf", ⟨[3], "application/pdf"⟩)]).1
    "new-client/nic_proof/a.pdf" ⟨[3], "application/pdf"⟩ (by decide)

end CeilaoBackend
